import Mathlib

/-!
Verification of the source-chain header core (`src/core/src/chain/header.rs`).

The `Header` struct, its `Hash` implementation, `Header::new`, the accessors,
`hash`, `validate` and the hash-based `PartialEq` are embedded from the Rust
source.  Rust's `DefaultHasher` is SipHash-1-3 keyed with `(0, 0)`; we embed
it over `Nat` with explicit reduction modulo `2^64`.  The collaborating types
`Entry`, `Pair` and `MemChain` have no source file in the repository and are
modelled from the specification.
-/

set_option maxRecDepth 4000

namespace Holochain

/-- 64-bit truncation used for all `u64` arithmetic. -/
def w64 : Nat := 2 ^ 64

/-- Left rotation of a 64-bit word. -/
def rotl64 (x r : Nat) : Nat := ((x <<< r) ||| (x >>> (64 - r))) % w64

/-- The four 64-bit state words of a SipHash hasher. -/
structure SipState where
  v0 : Nat
  v1 : Nat
  v2 : Nat
  v3 : Nat

/-- One SipHash round, as in Rust `core::hash::sip::State::sip_round`. -/
def sipRound (s : SipState) : SipState :=
  let a0 := (s.v0 + s.v1) % w64
  let a1 := rotl64 s.v1 13 ^^^ a0
  let a0r := rotl64 a0 32
  let a2 := (s.v2 + s.v3) % w64
  let a3 := rotl64 s.v3 16 ^^^ a2
  let b0 := (a0r + a3) % w64
  let b3 := rotl64 a3 21 ^^^ b0
  let b2 := (a2 + a1) % w64
  let b1 := rotl64 a1 17 ^^^ b2
  let b2r := rotl64 b2 32
  ⟨b0, b1, b2r, b3⟩

/-- Compression of one 8-byte message word: `v3 ^= m`, one round
(SipHash-1-3 has one compression round), `v0 ^= m`. -/
def sipCompress (s : SipState) (m : Nat) : SipState :=
  let s1 := sipRound { s with v3 := s.v3 ^^^ m }
  { s1 with v0 := s1.v0 ^^^ m }

/-- Initial SipHash state for keys `k0 = k1 = 0`, as produced by
`DefaultHasher::new()`. -/
def sipInit : SipState :=
  ⟨0x736f6d6570736575, 0x646f72616e646f6d, 0x6c7967656e657261, 0x7465646279746573⟩

/-- Split a byte stream into full 8-byte little-endian words plus the
remaining tail of fewer than 8 bytes. -/
def splitBlocks : List Nat → List Nat × List Nat
  | b0 :: b1 :: b2 :: b3 :: b4 :: b5 :: b6 :: b7 :: rest =>
    let (ws, tl) := splitBlocks rest
    (([b0, b1, b2, b3, b4, b5, b6, b7].foldr (fun b acc => acc * 256 + b) 0) :: ws, tl)
  | rest => ([], rest)

/-- SipHash finalization: the length-and-tail block, `v2 ^= 0xff`, three
finalization rounds, then the xor of the four state words. -/
def sipFinish (len : Nat) (tl : List Nat) (s : SipState) : Nat :=
  let b := ((len % 256) <<< 56) ||| tl.foldr (fun b acc => acc * 256 + b) 0
  let s1 := sipCompress s b
  let s2 := { s1 with v2 := s1.v2 ^^^ 0xff }
  let s3 := sipRound (sipRound (sipRound s2))
  (s3.v0 ^^^ s3.v1 ^^^ s3.v2 ^^^ s3.v3) % w64

/-- SipHash-1-3 with keys `(0, 0)` over a byte stream: the value returned by
`DefaultHasher::finish()` after the stream has been written. -/
def sipHash13 (bytes : List Nat) : Nat :=
  sipFinish bytes.length (splitBlocks bytes).2
    ((splitBlocks bytes).1.foldl sipCompress sipInit)

/-- UTF-8 encoding of one character, the bytes Rust sees in `str::as_bytes`. -/
def charBytes (c : Char) : List Nat :=
  let n := c.toNat
  if n < 0x80 then [n]
  else if n < 0x800 then [0xC0 + (n >>> 6), 0x80 + (n &&& 0x3F)]
  else if n < 0x10000 then
    [0xE0 + (n >>> 12), 0x80 + ((n >>> 6) &&& 0x3F), 0x80 + (n &&& 0x3F)]
  else
    [0xF0 + (n >>> 18), 0x80 + ((n >>> 12) &&& 0x3F), 0x80 + ((n >>> 6) &&& 0x3F),
      0x80 + (n &&& 0x3F)]

/-- UTF-8 bytes of a string. -/
def strBytes (s : String) : List Nat :=
  s.data.foldr (fun c acc => charBytes c ++ acc) []

/-- The bytes `Hash for str` feeds the hasher: the UTF-8 bytes followed by a
`0xff` terminator byte. -/
def writeStr (s : String) : List Nat := strBytes s ++ [0xff]

/-- The 8 little-endian bytes `Hasher::write_u64` feeds the hasher. -/
def u64Bytes (n : Nat) : List Nat :=
  [n &&& 0xff, (n >>> 8) &&& 0xff, (n >>> 16) &&& 0xff, (n >>> 24) &&& 0xff,
    (n >>> 32) &&& 0xff, (n >>> 40) &&& 0xff, (n >>> 48) &&& 0xff, (n >>> 56) &&& 0xff]

/-- The bytes the derived `Hash for Option<u64>` feeds the hasher: the 64-bit
discriminant value, then the payload for `Some`. -/
def writeOptU64 : Option Nat → List Nat
  | none => u64Bytes 0
  | some x => u64Bytes 1 ++ u64Bytes x

/-- Modelled from the spec: `Entry` (`src/core/src/chain/entry.rs` is not in
the sources) is a typed, content-addressed payload holding the two strings
`entry_type` and `content` exactly as given. -/
structure Entry where
  entry_type : String
  content : String
deriving DecidableEq

/-- Modelled from the spec: `Entry::new` stores the two strings as given with
no validation. -/
def Entry.new (entry_type content : String) : Entry := ⟨entry_type, content⟩

/-- Modelled from the spec: `Entry::hash` is the deterministic `DefaultHasher`
hash over `(entry_type, content)`. -/
def Entry.hash (e : Entry) : Nat :=
  sipHash13 (writeStr e.entry_type ++ writeStr e.content)

/-- The `Header` struct of `src/core/src/chain/header.rs`: entry type tag,
timestamp string, optional link to the previous header, entry hash, optional
link to the previous header of the same type, and signature string. -/
structure Header where
  entry_type : String
  time : String
  next : Option Nat
  entry : Nat
  type_next : Option Nat
  signature : String
deriving DecidableEq

/-- The byte stream `impl Hash for Header` feeds the hasher: all six fields
in declaration order (`entry_type`, `time`, `next`, `entry`, `type_next`,
`signature`). -/
def Header.hashBytes (h : Header) : List Nat :=
  writeStr h.entry_type ++ writeStr h.time ++ writeOptU64 h.next ++
    u64Bytes h.entry ++ writeOptU64 h.type_next ++ writeStr h.signature

/-- `Header::hash`: run a fresh `DefaultHasher` over the six fields and
return `finish()`. -/
def Header.hash (h : Header) : Nat := sipHash13 h.hashBytes

/-- `impl PartialEq for Header`: equality is comparison of the two hashes. -/
def Header.beq (h1 h2 : Header) : Bool := Header.hash h1 == Header.hash h2

/-- `Header::validate`: returns `true` unconditionally. -/
def Header.validate (_ : Header) : Bool := true

/-- Modelled from the spec: a `Pair` owns one header and one entry. -/
structure Pair where
  header : Header
  entry : Entry
deriving DecidableEq

/-- Modelled from the spec: `MemChain` is an ordered, append-only sequence of
pairs, index 0 being the genesis record. -/
abbrev MemChain : Type := List Pair

/-- Modelled from the spec: `MemChain::new` is the empty chain. -/
def MemChain.new : MemChain := []

/-- Modelled from the spec: `top` returns the most recently appended pair,
or none if the chain is empty. -/
def MemChain.top (c : MemChain) : Option Pair := c.getLast?

/-- Modelled from the spec: `top_type` scans from the most recent pair
backwards and returns the first pair whose entry type matches. -/
def MemChain.top_type (c : MemChain) (t : String) : Option Pair :=
  c.reverse.find? (fun p => p.entry.entry_type == t)

/-- `Header::new`: copy the entry type, leave `time` and `signature` as empty
placeholder strings, link `next` to the hash of the top pair's header and
`type_next` to the hash of the top-of-type pair's header. -/
def Header.new (chain : MemChain) (entry : Entry) : Header :=
  { entry_type := entry.entry_type
    time := ""
    next := (MemChain.top chain).bind (fun p => some (Header.hash p.header))
    entry := Entry.hash entry
    type_next := (MemChain.top_type chain entry.entry_type).bind
      (fun p => some (Header.hash p.header))
    signature := "" }

/-- Modelled from the spec: `Pair::new` builds the header for the entry
against the chain and bundles it with the entry. -/
def Pair.new (chain : MemChain) (entry : Entry) : Pair :=
  ⟨Header.new chain entry, entry⟩

/-- Modelled from the spec: `push` appends the pair built against the current
state and returns the new chain. -/
def MemChain.push (c : MemChain) (e : Entry) : MemChain :=
  c ++ [Pair.new c e]

/-- A witness family showing `Header` is an infinite type: signatures are
arbitrary strings. -/
def natHeader (n : Nat) : Header :=
  ⟨"", "", none, 0, none, String.mk (List.replicate n 'a')⟩

instance : Infinite Header :=
  Infinite.of_injective natHeader (by
    intro m n h
    have h2 := congrArg (fun x => x.signature.data.length) h
    simpa [natHeader] using h2)

/-- `Header::hash` returns a 64-bit value. -/
theorem Header.hash_lt (h : Header) : Header.hash h < w64 :=
  Nat.mod_lt _ (by decide)

/-- Two headers agreeing on all six fields are equal. -/
theorem Header.ext6 {h1 h2 : Header} (e1 : h1.entry_type = h2.entry_type)
    (e2 : h1.time = h2.time) (e3 : h1.next = h2.next) (e4 : h1.entry = h2.entry)
    (e5 : h1.type_next = h2.type_next) (e6 : h1.signature = h2.signature) :
    h1 = h2 := by
  cases h1
  cases h2
  simp_all

/-- Binding an option into `some` of a function is `Option.map`. -/
theorem opt_bind_some (o : Option Pair) (f : Pair → Nat) :
    (o.bind fun p => some (f p)) = o.map f := by
  cases o <;> rfl

/-- C1: `Header::new(chain, entry)` sets `next` to the hash of the header of
`chain.top()`'s pair when the chain is non-empty and to `None` when it is
empty, and sets `type_next` to the hash of the header of
`chain.top_type(entry.entry_type())`'s pair when such a pair exists and to
`None` otherwise. -/
theorem header_new_links :
    (∀ (c : MemChain) (e : Entry),
        (Header.new c e).next = (MemChain.top c).map (fun p => Header.hash p.header) ∧
        (Header.new c e).type_next =
          (MemChain.top_type c e.entry_type).map (fun p => Header.hash p.header)) ∧
    (∀ e : Entry,
        (Header.new MemChain.new e).next = none ∧
        (Header.new MemChain.new e).type_next = none) := by
  refine ⟨fun c e => ⟨?_, ?_⟩, fun e => ⟨rfl, rfl⟩⟩
  · show (MemChain.top c).bind _ = _
    exact opt_bind_some _ _
  · show (MemChain.top_type c e.entry_type).bind _ = _
    exact opt_bind_some _ _

/-- C2: the header produced by `Header::new(chain, entry)` binds exactly that
entry: its `entry` accessor returns `entry.hash()` and its `entry_type`
accessor returns `entry.entry_type()`. -/
theorem header_new_binds_entry : ∀ (c : MemChain) (e : Entry),
    (Header.new c e).entry = Entry.hash e ∧ (Header.new c e).entry_type = e.entry_type :=
  fun _ _ => ⟨rfl, rfl⟩

/-- C3 (counterexample): it is not the case that two headers have equal
`hash()` exactly when all six fields are pairwise equal — `hash()` maps the
infinitely many header values into 64-bit outputs, so two headers differing
in some field share a hash. -/
theorem header_hash_eq_not_iff_fields_eq :
    ¬ (∀ h1 h2 : Header, Header.hash h1 = Header.hash h2 ↔
        (h1.entry_type = h2.entry_type ∧ h1.time = h2.time ∧ h1.next = h2.next ∧
          h1.entry = h2.entry ∧ h1.type_next = h2.type_next ∧
          h1.signature = h2.signature)) := by
  intro hall
  obtain ⟨x, y, hne, heq⟩ := Finite.exists_ne_map_eq_of_infinite
    (fun h : Header => (⟨Header.hash h, Header.hash_lt h⟩ : Fin w64))
  have hh : Header.hash x = Header.hash y := congrArg Fin.val heq
  obtain ⟨e1, e2, e3, e4, e5, e6⟩ := (hall x y).mp hh
  exact hne (Header.ext6 e1 e2 e3 e4 e5 e6)

/-- C3 (amended): if all six fields of two headers are pairwise equal then
their `hash()` values are equal; the converse fails because 64-bit hash
collisions exist. -/
theorem header_fields_eq_imp_hash_eq : ∀ h1 h2 : Header,
    h1.entry_type = h2.entry_type → h1.time = h2.time → h1.next = h2.next →
    h1.entry = h2.entry → h1.type_next = h2.type_next → h1.signature = h2.signature →
    Header.hash h1 = Header.hash h2 :=
  fun _ _ e1 e2 e3 e4 e5 e6 =>
    congrArg Header.hash (Header.ext6 e1 e2 e3 e4 e5 e6)

/-- C3 (witness): the field-equality hypotheses are satisfied by a header
built by `Header::new` on the empty chain and the literal record with the
same six fields. -/
theorem header_fields_eq_imp_hash_eq_witness :
    Header.hash (Header.new MemChain.new (Entry.new "foo" "bar")) =
      Header.hash
        ⟨"foo", "", none, Entry.hash (Entry.new "foo" "bar"), none, ""⟩ :=
  header_fields_eq_imp_hash_eq (Header.new MemChain.new (Entry.new "foo" "bar"))
    ⟨"foo", "", none, Entry.hash (Entry.new "foo" "bar"), none, ""⟩
    rfl rfl rfl rfl rfl rfl

/-- C4: the `PartialEq` comparison of two headers holds exactly when their
`hash()` values are equal. -/
theorem header_beq_iff_hash_eq : ∀ h1 h2 : Header,
    Header.beq h1 h2 = true ↔ Header.hash h1 = Header.hash h2 := by
  intro h1 h2
  simp [Header.beq]

/-- C5 (counterexample): two distinct chain states that share the same top
pair and the same top-of-type answer produce identical headers for the same
entry, hence equal header hashes, refuting the claim that any two differing
chain states give different hashes. -/
theorem header_hash_eq_across_distinct_chains :
    ([Pair.new MemChain.new (Entry.new "foo" "p")] : MemChain) ≠
      [Pair.new MemChain.new (Entry.new "bar" "q"),
        Pair.new MemChain.new (Entry.new "foo" "p")] ∧
    Header.hash
        (Header.new [Pair.new MemChain.new (Entry.new "foo" "p")]
          (Entry.new "foo" "z")) =
      Header.hash
        (Header.new
          [Pair.new MemChain.new (Entry.new "bar" "q"),
            Pair.new MemChain.new (Entry.new "foo" "p")]
          (Entry.new "foo" "z")) := by
  constructor
  · decide
  · rfl

/-- C5 (amended): chain state enters a header's identity through the
`top()`/`top_type()` header hashes: when the top header hashes of two chain
states differ, the constructed headers differ; and in the concrete
before/after-push scenario of the repository's tests, building a header for
`Entry::new("foo", "bar")` before and after pushing it yields different
header hashes. Chain states differing only below an identical top produce
identical headers. -/
theorem header_new_chain_state_dependence :
    (∀ (c1 c2 : MemChain) (e : Entry),
        (MemChain.top c1).map (fun p => Header.hash p.header) ≠
          (MemChain.top c2).map (fun p => Header.hash p.header) →
        Header.new c1 e ≠ Header.new c2 e) ∧
    Header.hash (Header.new MemChain.new (Entry.new "foo" "bar")) ≠
      Header.hash
        (Header.new (MemChain.push MemChain.new (Entry.new "foo" "bar"))
          (Entry.new "foo" "bar")) := by
  constructor
  · intro c1 c2 e hne heq
    apply hne
    have h1 := congrArg Header.next heq
    simp only [Header.new, opt_bind_some] at h1
    exact h1
  · decide

/-- C5 (witness): the empty chain and the chain after one push have
different top header hashes, and the resulting headers differ. -/
theorem header_new_chain_state_dependence_witness :
    (MemChain.top MemChain.new).map (fun p => Header.hash p.header) ≠
      (MemChain.top (MemChain.push MemChain.new (Entry.new "foo" "bar"))).map
        (fun p => Header.hash p.header) ∧
    Header.new MemChain.new (Entry.new "foo" "bar") ≠
      Header.new (MemChain.push MemChain.new (Entry.new "foo" "bar"))
        (Entry.new "foo" "bar") :=
  ⟨by decide,
    header_new_chain_state_dependence.1 _ _ _ (by decide)⟩

/-- C6: `Header::new` is total — for every chain state, including the empty
chain, and every entry, including entries with empty strings, it returns a
header; the embedding is a total function with no error branch. -/
theorem header_new_total : ∀ (c : MemChain) (e : Entry),
    ∃ h : Header, Header.new c e = h :=
  fun c e => ⟨Header.new c e, rfl⟩

/-- C7: a header built by `Header::new` has the placeholder empty string as
its `time` and as its `signature`. -/
theorem header_new_placeholder_fields : ∀ (c : MemChain) (e : Entry),
    (Header.new c e).time = "" ∧ (Header.new c e).signature = "" :=
  fun _ _ => ⟨rfl, rfl⟩

/-- C8: every header constructed via `Header::new` validates. -/
theorem header_new_validate : ∀ (c : MemChain) (e : Entry),
    (Header.new c e).validate = true :=
  fun _ _ => rfl

/-- C9: `Header::new` is deterministic — field-equal entries and chain
states whose `top()` and `top_type()` answers carry the same header hashes
produce field-equal headers with the same `hash()` value. -/
theorem header_new_deterministic : ∀ (c1 c2 : MemChain) (e1 e2 : Entry),
    e1.entry_type = e2.entry_type → e1.content = e2.content →
    (MemChain.top c1).map (fun p => Header.hash p.header) =
      (MemChain.top c2).map (fun p => Header.hash p.header) →
    (MemChain.top_type c1 e1.entry_type).map (fun p => Header.hash p.header) =
      (MemChain.top_type c2 e2.entry_type).map (fun p => Header.hash p.header) →
    Header.new c1 e1 = Header.new c2 e2 ∧
      Header.hash (Header.new c1 e1) = Header.hash (Header.new c2 e2) := by
  intro c1 c2 e1 e2 ht hc htop htype
  have he : e1 = e2 := by
    cases e1
    cases e2
    simp_all
  subst he
  have hmain : Header.new c1 e1 = Header.new c2 e1 := by
    simp only [Header.new, opt_bind_some]
    rw [htop, htype]
  exact ⟨hmain, congrArg Header.hash hmain⟩

/-- C9 (witness): the determinism hypotheses hold for the empty chain and
the entry `Entry::new("foo", "")` taken twice. -/
theorem header_new_deterministic_witness :
    Header.new MemChain.new (Entry.new "foo" "") =
        Header.new MemChain.new (Entry.new "foo" "") ∧
      Header.hash (Header.new MemChain.new (Entry.new "foo" "")) =
        Header.hash (Header.new MemChain.new (Entry.new "foo" "")) :=
  header_new_deterministic MemChain.new MemChain.new (Entry.new "foo" "")
    (Entry.new "foo" "") rfl rfl rfl rfl

/-- C10: `Header::validate` returns `true` for every header value
whatsoever, including hand-constructed headers whose links match no chain
state — validation checks no field. -/
theorem validate_always_true : ∀ h : Header, h.validate = true :=
  fun _ => rfl

end Holochain
